import Mathlib

/-!
Verification of the payment-reconciliation logic of FlatOS: due-date
resolution, weekly-amount resolution, per-user balance calculation,
aggregation, and the current-week payment summary.

The JS `Date` timeline is modelled as an integer count of milliseconds
since the Unix epoch (1970-01-01, which is a Thursday), with a fixed
UTC-like offset (no DST), so `getDay`, `setDate`/`addDays` and
`startOfWeek` are plain integer arithmetic.  Monetary amounts are
modelled as exact rationals.
-/

namespace FlatOS

/-- Milliseconds in one day. -/
def msPerDay : Int := 86400000

/-- Calendar day number of a timestamp (floor division; day 0 is 1970-01-01). -/
def dayNumber (t : Int) : Int := t / msPerDay

/-- JS `Date.prototype.getDay`: 0 = Sunday, …, 6 = Saturday.  Day 0 of
the epoch (1970-01-01) is a Thursday, i.e. `getDay 0 = 4`. -/
def getDay (t : Int) : Int := (dayNumber t + 4) % 7

/-- date-fns `addDays` (also models `d.setDate(d.getDate() + n)`). -/
def addDays (t : Int) (n : Int) : Int := t + n * msPerDay

/-- Index of a timestamp's weekday in a Monday-started week:
0 = Monday, …, 6 = Sunday. -/
def mondayIndex (t : Int) : Int := (getDay t + 6) % 7

/-- date-fns `startOfWeek(t, { weekStartsOn: 1 })`: midnight of the
Monday of `t`'s week. -/
def startOfWeek (t : Int) : Int := (dayNumber t - mondayIndex t) * msPerDay

/-- date-fns `endOfWeek(t, { weekStartsOn: 1 })`: the last millisecond
of the Sunday of `t`'s week. -/
def endOfWeek (t : Int) : Int := startOfWeek t + 7 * msPerDay - 1

/-- date-fns `nextThursday`: the next Thursday strictly after `t`,
preserving the time of day. -/
def nextThursday (t : Int) : Int :=
  addDays t (if 4 - getDay t ≤ 0 then 4 - getDay t + 7 else 4 - getDay t)

/-- `getDueThursday` from the payment calculator: the Thursday that
serves as the due date for a given date.  If the weekday is Thursday
(`getDay = 4`) or earlier (in JS weekday numbering), the current week's
Thursday; otherwise the next Thursday. -/
def getDueThursday (t : Int) : Int :=
  if getDay t ≤ 4 then addDays t (4 - getDay t) else nextThursday t

/-- The timestamp of JS `new Date(2100, 0, 1)` (2100-01-01 is 47482 days
after the epoch: 130 years of which 32 are leap). -/
def jan2100 : Int := 47482 * msPerDay

/-- A row of the `paymentSchedules` table, as selected by the payment
calculator. -/
structure PaymentSchedule where
  userId : String
  weeklyAmount : ℚ
  startDate : Int
  endDate : Option Int
  createdAt : Option Int
deriving Repr, DecidableEq

/-- A row of the `transactions` table, with the columns the payment
calculator reads. -/
structure Transaction where
  id : String
  matchedUserId : Option String
  matchType : Option String
  date : Int
  amount : ℚ
  description : String
  matchConfidence : Option ℚ
deriving Repr, DecidableEq

/-- A row of the `users` table (projection selected by the calculator). -/
structure User where
  id : String
  name : Option String
  email : String
deriving Repr, DecidableEq

/-- The database state the payment calculator reads: the `users`,
`paymentSchedules` and `transactions` tables, and the `systemState`
key-value table (`value` is a nullable text column). -/
structure Db where
  users : List User
  paymentSchedules : List PaymentSchedule
  transactions : List Transaction
  systemState : List (String × Option String)
deriving Repr

/-- The filter predicate of `getWeeklyAmount`: the schedule's interval
covers the week start, a missing `endDate` being replaced by
`new Date(2100, 0, 1)` (`s.startDate <= weekStart && scheduleEnd >= weekStart`). -/
def scheduleCovers (s : PaymentSchedule) (weekStart : Int) : Bool :=
  decide (s.startDate ≤ weekStart) && decide (weekStart ≤ s.endDate.getD jan2100)

/-- The comparator of `getWeeklyAmount`'s sort
(`sort((a, b) => b.startDate - a.startDate)`): descending `startDate`. -/
def byDescStart (a b : PaymentSchedule) : Prop := b.startDate ≤ a.startDate

instance : DecidableRel byDescStart := fun a b =>
  inferInstanceAs (Decidable (b.startDate ≤ a.startDate))

instance : IsTotal PaymentSchedule byDescStart :=
  ⟨fun a b => le_total b.startDate a.startDate⟩

instance : IsTrans PaymentSchedule byDescStart :=
  ⟨fun _ _ _ hab hbc => le_trans hbc hab⟩

/-- `getWeeklyAmount` from the payment calculator: filter the schedules
covering the week, sort them by descending `startDate` (JS `sort` is a
stable sort, modelled by stable insertion sort) and return the first
one's `weeklyAmount`; 0 when none apply. -/
def getWeeklyAmount (schedules : List PaymentSchedule) (weekStart : Int) : ℚ :=
  let applicableSchedules := schedules.filter (fun s => scheduleCovers s weekStart)
  match applicableSchedules.insertionSort byDescStart with
  | [] => 0
  | s :: _ => s.weeklyAmount

/-- date-fns `eachWeekOfInterval({start, end}, { weekStartsOn: 1 })`:
the Monday midnights of every week touching the interval, in
chronological order (empty when the interval is reversed). -/
def eachWeekOfInterval (start stop : Int) : List Int :=
  let first := startOfWeek start
  let last := startOfWeek stop
  if first ≤ last then
    (List.range (((last - first) / (7 * msPerDay)).toNat + 1)).map
      (fun i => first + 7 * msPerDay * i)
  else []

/-- The JS `reduce((sum, x) => sum + f(x), 0)` pattern used throughout
the payment calculator. -/
def sumBy (f : α → ℚ) (l : List α) : ℚ := l.foldl (fun sum x => sum + f x) 0

/-- The transaction query of `calculateFlatmateBalance`: the user's
`rent_payment`-matched, positive transactions dated within
`[startDate, endDate]`. -/
def userRentTransactions (db : Db) (userId : String) (startDate stop : Int) :
    List Transaction :=
  db.transactions.filter (fun tx =>
    decide (tx.matchedUserId = some userId) &&
    decide (tx.matchType = some "rent_payment") &&
    decide (startDate ≤ tx.date) && decide (tx.date ≤ stop) &&
    decide (0 < tx.amount))

/-- The schedule query of `calculateFlatmateBalance`. -/
def userSchedules (db : Db) (userId : String) : List PaymentSchedule :=
  db.paymentSchedules.filter (fun s => decide (s.userId = userId))

/-- The projection of a transaction stored in
`WeeklyObligation.paymentTransactions`. -/
structure PaymentTxInfo where
  id : String
  date : Int
  amount : ℚ
  description : String
  matchType : Option String
  confidence : Option ℚ
deriving Repr, DecidableEq

/-- One entry of the weekly breakdown (`WeeklyObligation`). -/
structure WeeklyObligation where
  weekStart : Int
  weekEnd : Int
  dueDate : Int
  amountDue : ℚ
  amountPaid : ℚ
  balance : ℚ
  paymentTransactions : List PaymentTxInfo
deriving Repr, DecidableEq

/-- Per-user result of the balance calculator (`FlatmateBalance`). -/
structure FlatmateBalance where
  userId : String
  userName : Option String
  userEmail : String
  totalDue : ℚ
  totalPaid : ℚ
  balance : ℚ
  weeklyBreakdown : List WeeklyObligation
  currentWeeklyRate : Option ℚ
deriving Repr, DecidableEq

/-- The predicate selecting a week's candidate transactions inside the
loop of `calculateFlatmateBalance`: not yet assigned to an earlier week,
and dated within `[dueDate - 7 days, dueDate + 3 days]`. -/
def weekPaymentFilter (assigned : List String) (dueDate : Int)
    (tx : Transaction) : Bool :=
  !(assigned.contains tx.id) &&
  decide (addDays dueDate (-7) ≤ tx.date) && decide (tx.date ≤ addDays dueDate 3)

/-- The candidate transactions of one processed week (`weekPayments` in
the loop body of `calculateFlatmateBalance`). -/
def weekPayments (userTransactions : List Transaction)
    (assigned : List String) (weekStart : Int) : List Transaction :=
  userTransactions.filter
    (weekPaymentFilter assigned (getDueThursday weekStart))

/-- The `WeeklyObligation` record pushed for one processed week. -/
def weekObligation (schedules : List PaymentSchedule)
    (userTransactions : List Transaction) (assigned : List String)
    (weekStart : Int) : WeeklyObligation :=
  { weekStart := weekStart
    weekEnd := endOfWeek weekStart
    dueDate := getDueThursday weekStart
    amountDue := getWeeklyAmount schedules weekStart
    amountPaid := sumBy Transaction.amount
      (weekPayments userTransactions assigned weekStart)
    balance := sumBy Transaction.amount
      (weekPayments userTransactions assigned weekStart) -
      getWeeklyAmount schedules weekStart
    paymentTransactions :=
      (weekPayments userTransactions assigned weekStart).map (fun tx =>
        ⟨tx.id, tx.date, tx.amount, tx.description, tx.matchType,
          tx.matchConfidence⟩) }

/-- The week loop of `calculateFlatmateBalance`: walk the week starts in
order, skip weeks whose due Thursday is after `now`
(`isAfter(dueDate, now)`), and for the rest record the weekly
obligation, consuming each candidate transaction the first time it
matches (`assignedTransactionIds`).  Returns the `weeklyBreakdown` and
the accumulated `totalDue`. -/
def processWeeks (schedules : List PaymentSchedule)
    (userTransactions : List Transaction) (now : Int) :
    List Int → List String → List WeeklyObligation × ℚ
  | [], _ => ([], 0)
  | weekStart :: rest, assigned =>
    if now < getDueThursday weekStart then
      processWeeks schedules userTransactions now rest assigned
    else
      let res := processWeeks schedules userTransactions now rest
        (assigned ++ (weekPayments userTransactions assigned weekStart).map
          Transaction.id)
      (weekObligation schedules userTransactions assigned weekStart :: res.1,
        getWeeklyAmount schedules weekStart + res.2)

/-- `calculateFlatmateBalance`: the balance of one flatmate over the
window `[startDate, stop]`, evaluated at time `now` (the code calls
`new Date()` for both the future-week test and the current rate). -/
def calculateFlatmateBalance (db : Db) (userId : String)
    (userName : Option String) (userEmail : String)
    (startDate stop now : Int) : FlatmateBalance :=
  let schedules := userSchedules db userId
  let userTransactions := userRentTransactions db userId startDate stop
  let weeks := eachWeekOfInterval startDate stop
  let res := processWeeks schedules userTransactions now weeks []
  let totalPaid := sumBy Transaction.amount userTransactions
  let currentRate := getWeeklyAmount schedules now
  { userId := userId
    userName := userName
    userEmail := userEmail
    totalDue := res.2
    totalPaid := totalPaid
    balance := totalPaid - res.2
    weeklyBreakdown := res.1
    currentWeeklyRate := if currentRate = 0 then none else some currentRate }

/-- `getAnalysisStartDate`: look up the `analysis_start_date` key in
`systemState` (`limit 1`, so the first matching row); return `null`
when the row is missing or its value is falsy (SQL `NULL` or the empty
string), or when `new Date(value)` is invalid.  JS `Date`-string parsing
is environment-provided, so it is passed in as `parse`; `parse v = none`
models an invalid date (`isNaN(date.getTime())`). -/
def getAnalysisStartDate (db : Db) (parse : String → Option Int) : Option Int :=
  match db.systemState.find? (fun kv => decide (kv.1 = "analysis_start_date")) with
  | none => none
  | some (_, none) => none
  | some (_, some v) => if v = "" then none else parse v

/-- The start-date resolution line shared by `calculateAllBalances` and
`calculateUserBalance`:
`startDate ?? configuredStartDate ?? new Date(Date.now() - 180*24*60*60*1000)`. -/
def resolveStartDate (db : Db) (parse : String → Option Int) (now : Int)
    (startDate : Option Int) : Int :=
  startDate.getD ((getAnalysisStartDate db parse).getD (now - 180 * msPerDay))

/-- Household-wide result of `calculateAllBalances` (`PaymentSummary`). -/
structure PaymentSummary where
  flatmates : List FlatmateBalance
  totalDue : ℚ
  totalPaid : ℚ
  totalBalance : ℚ
deriving Repr, DecidableEq

/-- `calculateAllBalances`: run the balance calculator for every user
(including admins) over the resolved window and sum the totals. -/
def calculateAllBalances (db : Db) (parse : String → Option Int) (now : Int)
    (startDate : Option Int) : PaymentSummary :=
  let calcStartDate := resolveStartDate db parse now startDate
  let balances := db.users.map (fun f =>
    calculateFlatmateBalance db f.id f.name f.email calcStartDate now now)
  { flatmates := balances
    totalDue := sumBy FlatmateBalance.totalDue balances
    totalPaid := sumBy FlatmateBalance.totalPaid balances
    totalBalance := sumBy FlatmateBalance.balance balances }

/-- `calculateUserBalance`: look the user up (`limit 1`); `null` when no
row matches, otherwise that user's balance over the resolved window. -/
def calculateUserBalance (db : Db) (parse : String → Option Int) (now : Int)
    (userId : String) (startDate : Option Int) : Option FlatmateBalance :=
  match db.users.find? (fun u => decide (u.id = userId)) with
  | none => none
  | some u =>
    let calcStartDate := resolveStartDate db parse now startDate
    some (calculateFlatmateBalance db u.id u.name u.email calcStartDate now now)

/-- One entry of `getCurrentWeekSummary`'s result. -/
structure WeekSummaryEntry where
  userId : String
  userName : Option String
  amountDue : ℚ
  amountPaid : ℚ
  status : String
deriving Repr, DecidableEq

/-- The status chain of `getCurrentWeekSummary`, in the source's order:
`unpaid` when nothing was paid against a positive due amount, then the
`1.1` and `0.95` thresholds, then `partial` for any other positive
payment, and a final fallback of `paid`. -/
def statusOf (amountDue amountPaid : ℚ) : String :=
  if amountPaid = 0 ∧ amountDue > 0 then "unpaid"
  else if amountPaid ≥ amountDue * 1.1 then "overpaid"
  else if amountPaid ≥ amountDue * 0.95 then "paid"
  else if amountPaid > 0 then "partial"
  else "paid"

/-- The payment query of `getCurrentWeekSummary`: the user's positive
`rent_payment` transactions dated within
`[dueDate - 7 days, dueDate + 3 days]`. -/
def currentWeekPayments (db : Db) (userId : String) (dueDate : Int) :
    List Transaction :=
  db.transactions.filter (fun tx =>
    decide (tx.matchedUserId = some userId) &&
    decide (tx.matchType = some "rent_payment") &&
    decide (addDays dueDate (-7) ≤ tx.date) &&
    decide (tx.date ≤ addDays dueDate 3) &&
    decide (0 < tx.amount))

/-- The per-user body of `getCurrentWeekSummary`: this week's due amount
from the user's schedules, the paid amount summed over this week's
payments, and the status picked by the ordered threshold chain. -/
def currentWeekEntry (db : Db) (weekStart dueDate : Int) (f : User) :
    WeekSummaryEntry :=
  let schedules := userSchedules db f.id
  let amountDue := getWeeklyAmount schedules weekStart
  let payments := currentWeekPayments db f.id dueDate
  let amountPaid := sumBy Transaction.amount payments
  { userId := f.id
    userName := f.name
    amountDue := amountDue
    amountPaid := amountPaid
    status := statusOf amountDue amountPaid }

/-- `getCurrentWeekSummary`: who owes what for the week containing
`now`, for every user. -/
def getCurrentWeekSummary (db : Db) (now : Int) : List WeekSummaryEntry :=
  let weekStart := startOfWeek now
  let dueDate := getDueThursday weekStart
  db.users.map (currentWeekEntry db weekStart dueDate)

/-- The spec's selection predicate for the weekly-amount resolver,
stated with the half-open interval it names: the week start lies in
`[startDate, endDate)`, an absent `endDate` meaning no upper bound.
Used only to compare the spec's wording with `scheduleCovers`. -/
def specHalfOpenCovers (s : PaymentSchedule) (weekStart : Int) : Prop :=
  s.startDate ≤ weekStart ∧ ∀ e ∈ s.endDate, weekStart < e

instance (s : PaymentSchedule) (w : Int) : Decidable (specHalfOpenCovers s w) := by
  unfold specHalfOpenCovers; infer_instance

/-- A sample database used to instantiate theorems at concrete inputs:
one flatmate with a single open-ended 250-per-week schedule and one rent
payment of 250 dated Thursday 1970-01-08 (day 7). -/
def sampleDb : Db :=
  { users := [⟨"u1", none, "u1@flat.example"⟩]
    paymentSchedules := [⟨"u1", 250, 0, none, none⟩]
    transactions := [⟨"t1", some "u1", some "rent_payment", 7 * 86400000, 250,
      "weekly rent", some 1⟩]
    systemState := [] }

/-- A database whose only user has no schedules and no transactions. -/
def emptyActivityDb : Db :=
  { users := [⟨"u1", none, "u1@flat.example"⟩]
    paymentSchedules := []
    transactions := []
    systemState := [] }

/-- A database carrying only a configured analysis start date. -/
def configuredDb : Db :=
  { users := []
    paymentSchedules := []
    transactions := []
    systemState := [("analysis_start_date", some "2024-01-01")] }

/-- A date parser for the sample configuration: recognises exactly the
configured string, as day 42. -/
def sampleParse : String → Option Int :=
  fun s => if s = "2024-01-01" then some (42 * 86400000) else none

/-! ## Claim C3: the due-date resolver -/

/-- C3: for every date `t`, `getDueThursday t` is a Thursday; it is the
same (Monday-started) week's Thursday when `t`'s weekday is Monday
through Thursday (`mondayIndex t ≤ 3`) and the following week's
Thursday otherwise (Friday, Saturday or Sunday); and it lies between
the Monday of `t`'s week and 6 days after `t`. -/
theorem getDueThursday_is_governing_thursday (t : Int) :
    getDay (getDueThursday t) = 4 ∧
    (mondayIndex t ≤ 3 →
      dayNumber (getDueThursday t) = dayNumber (startOfWeek t) + 3) ∧
    (3 < mondayIndex t →
      dayNumber (getDueThursday t) = dayNumber (startOfWeek t) + 10) ∧
    startOfWeek t ≤ getDueThursday t ∧ getDueThursday t ≤ addDays t 6 := by
  simp only [getDueThursday, nextThursday, getDay, dayNumber, mondayIndex,
    startOfWeek, addDays, msPerDay]
  split_ifs <;> omega

/-- C3 witness: the concrete facts at `t = 0` (a Thursday) and at
`t = 86400000` (a Friday), obtained from the theorem. -/
theorem getDueThursday_is_governing_thursday_witness :
    getDay (getDueThursday 0) = 4 ∧
    dayNumber (getDueThursday 0) = dayNumber (startOfWeek 0) + 3 ∧
    dayNumber (getDueThursday 86400000) = dayNumber (startOfWeek 86400000) + 10 :=
  ⟨(getDueThursday_is_governing_thursday 0).1,
   (getDueThursday_is_governing_thursday 0).2.1 (by decide),
   (getDueThursday_is_governing_thursday 86400000).2.2.1 (by decide)⟩

/-! ## Claim C1: the weekly-amount resolver -/

theorem getWeeklyAmount_eq_match (schedules : List PaymentSchedule)
    (weekStart : Int) :
    getWeeklyAmount schedules weekStart =
      match (schedules.filter (fun s => scheduleCovers s weekStart)).insertionSort
          byDescStart with
      | [] => 0
      | s :: _ => s.weeklyAmount := rfl

/-- C1 counterexample: a single schedule whose `endDate` equals the
target week start.  The spec's half-open interval `[startDate, endDate)`
does not contain the week start, so the claim demands the resolver
return 0; the code's test `scheduleEnd >= weekStart` is inclusive and
returns the schedule's rate instead. -/
theorem getWeeklyAmount_halfopen_counterexample :
    (¬ specHalfOpenCovers ⟨"u1", 100, 0, some 0, none⟩ 0) ∧
    getWeeklyAmount [⟨"u1", 100, 0, some 0, none⟩] 0 = 100 ∧ (100 : ℚ) ≠ 0 := by
  refine ⟨by decide, ?_, by norm_num⟩
  decide

/-- C1 (amended): the resolver selects exactly the schedules whose
closed interval `[startDate, endDate]` contains the week start, a
missing `endDate` being replaced by 2100-01-01; among the selected it
returns the `weeklyAmount` of one with the latest `startDate`, and it
returns 0 when none is selected. -/
theorem getWeeklyAmount_latest_covering (schedules : List PaymentSchedule)
    (weekStart : Int) :
    ((∀ s ∈ schedules,
        ¬(s.startDate ≤ weekStart ∧ weekStart ≤ s.endDate.getD jan2100)) →
      getWeeklyAmount schedules weekStart = 0) ∧
    ((∃ s ∈ schedules,
        s.startDate ≤ weekStart ∧ weekStart ≤ s.endDate.getD jan2100) →
      ∃ s ∈ schedules,
        (s.startDate ≤ weekStart ∧ weekStart ≤ s.endDate.getD jan2100) ∧
        (∀ s2 ∈ schedules,
          s2.startDate ≤ weekStart ∧ weekStart ≤ s2.endDate.getD jan2100 →
          s2.startDate ≤ s.startDate) ∧
        getWeeklyAmount schedules weekStart = s.weeklyAmount) := by
  have hcov : ∀ s : PaymentSchedule,
      scheduleCovers s weekStart = true ↔
      (s.startDate ≤ weekStart ∧ weekStart ≤ s.endDate.getD jan2100) := by
    intro s
    simp [scheduleCovers]
  have hperm := List.perm_insertionSort byDescStart
    (schedules.filter (fun s => scheduleCovers s weekStart))
  constructor
  · intro hnone
    have hfil : schedules.filter (fun s => scheduleCovers s weekStart) = [] := by
      refine List.filter_eq_nil_iff.mpr ?_
      intro s hs
      simp only [Bool.not_eq_true]
      rcases h : scheduleCovers s weekStart with _ | _
      · rfl
      · exact absurd ((hcov s).mp h) (hnone s hs)
    rw [getWeeklyAmount_eq_match, hfil]
    rfl
  · intro hsome
    rcases hsome with ⟨s0, hs0m, hs0c⟩
    have hs0f : s0 ∈ schedules.filter (fun s => scheduleCovers s weekStart) :=
      List.mem_filter.mpr ⟨hs0m, (hcov s0).mpr hs0c⟩
    have hsd := List.sorted_insertionSort byDescStart
      (schedules.filter (fun s => scheduleCovers s weekStart))
    rcases hsorted : (schedules.filter
        (fun s => scheduleCovers s weekStart)).insertionSort byDescStart with
      _ | ⟨s, rest⟩
    · rw [hsorted] at hperm
      have := hperm.symm.eq_nil
      rw [this] at hs0f
      exact absurd hs0f (by simp)
    · rw [hsorted] at hsd hperm
      have hsmem : s ∈ schedules.filter (fun s => scheduleCovers s weekStart) :=
        hperm.mem_iff.mp (by simp)
      have hsm := List.mem_filter.mp hsmem
      refine ⟨s, hsm.1, (hcov s).mp hsm.2, ?_, ?_⟩
      · intro s2 hs2m hs2c
        have hs2f : s2 ∈ schedules.filter (fun s => scheduleCovers s weekStart) :=
          List.mem_filter.mpr ⟨hs2m, (hcov s2).mpr hs2c⟩
        rcases List.mem_cons.mp (hperm.mem_iff.mpr hs2f) with h | h2
        · exact h ▸ le_refl _
        · exact (List.pairwise_cons.mp hsd).1 s2 h2
      · rw [getWeeklyAmount_eq_match, hsorted]

/-- C1 witness: for a pair of overlapping schedules (200 from day 0,
300 from day 60) and a week starting at day 63, and for the empty
schedule set, the theorem's conclusions at those concrete inputs. -/
theorem getWeeklyAmount_latest_covering_witness :
    getWeeklyAmount [] 0 = 0 ∧
    ∃ s ∈ [(⟨"u1", 200, 0, none, none⟩ : PaymentSchedule),
           ⟨"u1", 300, 60 * 86400000, none, none⟩],
      (s.startDate ≤ 63 * 86400000 ∧
        63 * 86400000 ≤ s.endDate.getD jan2100) ∧
      (∀ s2 ∈ [(⟨"u1", 200, 0, none, none⟩ : PaymentSchedule),
               ⟨"u1", 300, 60 * 86400000, none, none⟩],
        s2.startDate ≤ 63 * 86400000 ∧
          63 * 86400000 ≤ s2.endDate.getD jan2100 →
        s2.startDate ≤ s.startDate) ∧
      getWeeklyAmount [⟨"u1", 200, 0, none, none⟩,
        ⟨"u1", 300, 60 * 86400000, none, none⟩] (63 * 86400000) =
        s.weeklyAmount :=
  ⟨(getWeeklyAmount_latest_covering [] 0).1 (by simp),
   (getWeeklyAmount_latest_covering
      [⟨"u1", 200, 0, none, none⟩, ⟨"u1", 300, 60 * 86400000, none, none⟩]
      (63 * 86400000)).2
      ⟨⟨"u1", 300, 60 * 86400000, none, none⟩, by simp, by decide⟩⟩

/-! ## Generic lemmas about `sumBy` -/

theorem foldl_add_eq {α : Type} (f : α → ℚ) (l : List α) (a : ℚ) :
    l.foldl (fun sum x => sum + f x) a = a + (l.map f).sum := by
  induction l generalizing a with
  | nil => simp
  | cons x xs ih =>
    simp only [List.foldl_cons, List.map_cons, List.sum_cons, ih (a + f x)]
    ring

theorem sumBy_eq_sum {α : Type} (f : α → ℚ) (l : List α) :
    sumBy f l = (l.map f).sum := by
  simp [sumBy, foldl_add_eq]

theorem sumBy_cons {α : Type} (f : α → ℚ) (x : α) (l : List α) :
    sumBy f (x :: l) = f x + sumBy f l := by
  simp [sumBy_eq_sum]

theorem sumBy_nonneg {α : Type} (f : α → ℚ) (l : List α)
    (h : ∀ x ∈ l, 0 ≤ f x) : 0 ≤ sumBy f l := by
  rw [sumBy_eq_sum]
  refine List.sum_nonneg ?_
  intro x hx
  rcases List.mem_map.mp hx with ⟨y, hy, rfl⟩
  exact h y hy

/-- Splitting the sum over a filter into two filters that partition it
on the members of the list. -/
theorem sumBy_filter_split (l : List Transaction) (p q r : Transaction → Bool)
    (h : ∀ tx ∈ l, (r tx = true ↔ (p tx = true ∨ q tx = true)) ∧
      ¬(p tx = true ∧ q tx = true)) :
    sumBy Transaction.amount (l.filter r) =
      sumBy Transaction.amount (l.filter p) +
        sumBy Transaction.amount (l.filter q) := by
  induction l with
  | nil => simp [sumBy]
  | cons x xs ih =>
    have hx := h x (by simp)
    have hxs := fun tx htx => h tx (List.mem_cons_of_mem x htx)
    rw [List.filter_cons, List.filter_cons, List.filter_cons]
    rcases hp : p x with _ | _ <;> rcases hq : q x with _ | _ <;>
      rcases hr : r x with _ | _ <;>
      simp only [hp, hq, hr, Bool.false_eq_true, Bool.true_eq_false,
        if_true, if_false, sumBy_cons, ih hxs] <;>
      simp only [hp, hq, hr] at hx <;>
      (try simp at hx) <;>
      (try ring)

/-! ## Lemmas about the week loop -/

theorem processWeeks_nil (sch : List PaymentSchedule) (txs : List Transaction)
    (now : Int) (assigned : List String) :
    processWeeks sch txs now [] assigned = ([], 0) := rfl

theorem processWeeks_cons (sch : List PaymentSchedule) (txs : List Transaction)
    (now w : Int) (rest : List Int) (assigned : List String) :
    processWeeks sch txs now (w :: rest) assigned =
      if now < getDueThursday w then processWeeks sch txs now rest assigned
      else
        (weekObligation sch txs assigned w ::
            (processWeeks sch txs now rest
              (assigned ++ (weekPayments txs assigned w).map Transaction.id)).1,
          getWeeklyAmount sch w +
            (processWeeks sch txs now rest
              (assigned ++ (weekPayments txs assigned w).map
                Transaction.id)).2) := rfl

/-- Every recorded weekly obligation satisfies the balance identity, has
a due date not after `now`, and holds only transactions that were not
already assigned when the loop reached its week. -/
theorem processWeeks_mem_facts (sch : List PaymentSchedule)
    (txs : List Transaction) (now : Int) :
    ∀ (weeks : List Int) (assigned : List String),
      ∀ ob ∈ (processWeeks sch txs now weeks assigned).1,
        ob.balance = ob.amountPaid - ob.amountDue ∧
        ob.dueDate ≤ now ∧
        (∀ p ∈ ob.paymentTransactions, p.id ∉ assigned) := by
  intro weeks
  induction weeks with
  | nil =>
    intro assigned ob hob
    rw [processWeeks_nil] at hob
    exact absurd hob (by simp)
  | cons w rest ih =>
    intro assigned ob hob
    rw [processWeeks_cons] at hob
    by_cases hlt : now < getDueThursday w
    · rw [if_pos hlt] at hob
      exact ih assigned ob hob
    · rw [if_neg hlt] at hob
      rcases List.mem_cons.mp hob with hob | hob
      · subst hob
        refine ⟨rfl, le_of_not_lt hlt, ?_⟩
        intro p hp
        rcases List.mem_map.mp hp with ⟨tx, htx, rfl⟩
        have h2 := (List.mem_filter.mp htx).2
        simp only [weekPaymentFilter, Bool.and_eq_true, Bool.not_eq_true',
          List.elem_eq_mem, decide_eq_false_iff_not] at h2
        exact h2.1.1
      · have hfacts := ih _ ob hob
        refine ⟨hfacts.1, hfacts.2.1, ?_⟩
        intro p hp
        have h3 := hfacts.2.2 p hp
        rw [List.mem_append] at h3
        exact fun hmem => h3 (Or.inl hmem)

/-- C2's core: the breakdown entries produced by the loop hold pairwise
id-disjoint transaction lists. -/
theorem processWeeks_pairwise (sch : List PaymentSchedule)
    (txs : List Transaction) (now : Int) :
    ∀ (weeks : List Int) (assigned : List String),
      List.Pairwise (fun w1 w2 =>
          ∀ p1 ∈ w1.paymentTransactions, ∀ p2 ∈ w2.paymentTransactions,
            p1.id ≠ p2.id)
        (processWeeks sch txs now weeks assigned).1 := by
  intro weeks
  induction weeks with
  | nil =>
    intro assigned
    rw [processWeeks_nil]
    exact List.Pairwise.nil
  | cons w rest ih =>
    intro assigned
    rw [processWeeks_cons]
    by_cases hlt : now < getDueThursday w
    · rw [if_pos hlt]
      exact ih assigned
    · rw [if_neg hlt]
      refine List.Pairwise.cons ?_ (ih _)
      intro ob2 hob2 p1 hp1 p2 hp2 heq
      have hfacts := processWeeks_mem_facts sch txs now rest
        (assigned ++ (weekPayments txs assigned w).map Transaction.id) ob2 hob2
      have hnot := hfacts.2.2 p2 hp2
      rw [List.mem_append] at hnot
      rcases List.mem_map.mp hp1 with ⟨tx1, htx1, rfl⟩
      have hmem : p2.id ∈ (weekPayments txs assigned w).map Transaction.id := by
        rw [← heq]
        exact List.mem_map_of_mem Transaction.id htx1
      exact hnot (Or.inr hmem)

/-- The accumulated `totalDue` equals the sum of the recorded entries'
`amountDue` (skipped weeks contribute nothing). -/
theorem processWeeks_totalDue (sch : List PaymentSchedule)
    (txs : List Transaction) (now : Int) :
    ∀ (weeks : List Int) (assigned : List String),
      (processWeeks sch txs now weeks assigned).2 =
        sumBy WeeklyObligation.amountDue
          (processWeeks sch txs now weeks assigned).1 := by
  intro weeks
  induction weeks with
  | nil =>
    intro assigned
    rw [processWeeks_nil]
    simp [sumBy]
  | cons w rest ih =>
    intro assigned
    rw [processWeeks_cons]
    by_cases hlt : now < getDueThursday w
    · rw [if_pos hlt]
      exact ih assigned
    · rw [if_neg hlt]
      simp only [sumBy_cons]
      rw [← ih _]
      rfl

/-- With pairwise-distinct transaction ids and nonnegative amounts, the
amounts assigned by the loop never exceed the amounts of the
still-unassigned transactions. -/
theorem processWeeks_paid_le (sch : List PaymentSchedule)
    (txs : List Transaction) (now : Int)
    (hnn : ∀ tx ∈ txs, 0 ≤ tx.amount)
    (hnd : (txs.map Transaction.id).Nodup) :
    ∀ (weeks : List Int) (assigned : List String),
      sumBy WeeklyObligation.amountPaid
          (processWeeks sch txs now weeks assigned).1 ≤
        sumBy Transaction.amount
          (txs.filter (fun tx => !(assigned.contains tx.id))) := by
  intro weeks
  induction weeks with
  | nil =>
    intro assigned
    rw [processWeeks_nil]
    have h0 : sumBy WeeklyObligation.amountPaid
        ([] : List WeeklyObligation) = 0 := by
      simp [sumBy]
    rw [h0]
    refine sumBy_nonneg _ _ ?_
    intro tx htx
    exact hnn tx (List.mem_of_mem_filter htx)
  | cons w rest ih =>
    intro assigned
    rw [processWeeks_cons]
    by_cases hlt : now < getDueThursday w
    · rw [if_pos hlt]
      exact ih assigned
    · rw [if_neg hlt]
      simp only [sumBy_cons]
      have hkey : ∀ tx ∈ txs,
          tx.id ∈ (weekPayments txs assigned w).map Transaction.id →
          tx ∈ weekPayments txs assigned w := by
        intro tx htx hid
        rcases List.mem_map.mp hid with ⟨ty, hty, hidty⟩
        have hty2 : ty ∈ txs := List.mem_of_mem_filter hty
        have : ty = tx := List.inj_on_of_nodup_map hnd hty2 htx hidty
        exact this ▸ hty
      have hpchar : ∀ tx : Transaction,
          weekPaymentFilter assigned (getDueThursday w) tx = true ↔
          (tx.id ∉ assigned ∧ addDays (getDueThursday w) (-7) ≤ tx.date ∧
            tx.date ≤ addDays (getDueThursday w) 3) := by
        intro tx
        simp [weekPaymentFilter, and_assoc]
      have hsplit : sumBy Transaction.amount
          (txs.filter (fun tx => !(assigned.contains tx.id))) =
          sumBy Transaction.amount
            (txs.filter (weekPaymentFilter assigned (getDueThursday w))) +
          sumBy Transaction.amount
            (txs.filter (fun tx =>
              !((assigned ++ (weekPayments txs assigned w).map
                Transaction.id).contains tx.id))) := by
        refine sumBy_filter_split _ _ _ _ ?_
        intro tx htx
        constructor
        · constructor
          · intro hr
            have hr2 : tx.id ∉ assigned := by
              simpa using hr
            by_cases hwin : addDays (getDueThursday w) (-7) ≤ tx.date ∧
                tx.date ≤ addDays (getDueThursday w) 3
            · exact Or.inl ((hpchar tx).mpr ⟨hr2, hwin.1, hwin.2⟩)
            · refine Or.inr ?_
              have hnotid : tx.id ∉ (weekPayments txs assigned w).map
                  Transaction.id := by
                intro hid
                have htx3 := hkey tx htx hid
                have := (hpchar tx).mp (List.mem_filter.mp htx3).2
                exact hwin ⟨this.2.1, this.2.2⟩
              simp [List.mem_append, hr2, hnotid]
          · intro hpq
            rcases hpq with hp | hq
            · have := (hpchar tx).mp hp
              simpa using this.1
            · have hq2 : tx.id ∉ assigned ++ (weekPayments txs assigned w).map
                  Transaction.id := by
                simpa using hq
              rw [List.mem_append] at hq2
              have : tx.id ∉ assigned := fun hmem => hq2 (Or.inl hmem)
              simpa using this
        · rintro ⟨hp, hq⟩
          have htxf : tx ∈ weekPayments txs assigned w :=
            List.mem_filter.mpr ⟨htx, hp⟩
          have hid : tx.id ∈ (weekPayments txs assigned w).map Transaction.id :=
            List.mem_map_of_mem Transaction.id htxf
          have hq2 : tx.id ∉ assigned ++ (weekPayments txs assigned w).map
              Transaction.id := by
            simpa using hq
          exact hq2 (List.mem_append_right _ hid)
      rw [hsplit]
      have h1 : (weekObligation sch txs assigned w).amountPaid =
          sumBy Transaction.amount
            (txs.filter (weekPaymentFilter assigned (getDueThursday w))) := rfl
      rw [h1]
      exact add_le_add (le_refl _) (ih _)

/-! ## Claim C2: no transaction is assigned to two weeks -/

/-- C2: in the weekly breakdown computed for any user and window, the
`paymentTransactions` lists of distinct weekly entries are pairwise
disjoint (no transaction id appears in two entries). -/
theorem weeklyBreakdown_pairwise_disjoint (db : Db) (userId : String)
    (userName : Option String) (userEmail : String) (startDate stop now : Int) :
    List.Pairwise (fun w1 w2 =>
        ∀ p1 ∈ w1.paymentTransactions, ∀ p2 ∈ w2.paymentTransactions,
          p1.id ≠ p2.id)
      (calculateFlatmateBalance db userId userName userEmail
        startDate stop now).weeklyBreakdown :=
  processWeeks_pairwise (userSchedules db userId)
    (userRentTransactions db userId startDate stop) now
    (eachWeekOfInterval startDate stop) []

/-- C2 witness: the pairwise-disjointness statement at the sample
database over the window `[0, day 13]` at `now = ` day 100. -/
theorem weeklyBreakdown_pairwise_disjoint_witness :
    List.Pairwise (fun w1 w2 =>
        ∀ p1 ∈ w1.paymentTransactions, ∀ p2 ∈ w2.paymentTransactions,
          p1.id ≠ p2.id)
      (calculateFlatmateBalance sampleDb "u1" none "u1@flat.example" 0
        (13 * 86400000) 8640000000).weeklyBreakdown :=
  weeklyBreakdown_pairwise_disjoint sampleDb "u1" none "u1@flat.example" 0
    (13 * 86400000) 8640000000

/-! ## Claim C4: totalPaid sums the whole window -/

/-- C4: `totalPaid` equals the sum over all of the user's positive
`rent_payment` transactions dated within the window (independent of the
per-week assignment), and it is at least the sum of `amountPaid` over
the weekly breakdown.  Transaction ids are pairwise distinct in the
store (`id` is the primary key). -/
theorem totalPaid_covers_weekly_sums (db : Db) (userId : String)
    (userName : Option String) (userEmail : String) (startDate stop now : Int)
    (hnd : (db.transactions.map Transaction.id).Nodup) :
    (calculateFlatmateBalance db userId userName userEmail
        startDate stop now).totalPaid =
      sumBy Transaction.amount (userRentTransactions db userId startDate stop) ∧
    sumBy WeeklyObligation.amountPaid
        (calculateFlatmateBalance db userId userName userEmail
          startDate stop now).weeklyBreakdown ≤
      (calculateFlatmateBalance db userId userName userEmail
        startDate stop now).totalPaid := by
  refine ⟨rfl, ?_⟩
  have hnn : ∀ tx ∈ userRentTransactions db userId startDate stop,
      0 ≤ tx.amount := by
    intro tx htx
    have h2 := (List.mem_filter.mp htx).2
    simp only [Bool.and_eq_true, decide_eq_true_eq] at h2
    exact le_of_lt h2.2
  have hnd2 : ((userRentTransactions db userId startDate stop).map
      Transaction.id).Nodup :=
    List.Nodup.sublist (List.Sublist.map _ (List.filter_sublist _)) hnd
  have hfe : (userRentTransactions db userId startDate stop).filter
      (fun tx => !(([] : List String).contains tx.id)) =
      userRentTransactions db userId startDate stop := by
    simp
  have hle := processWeeks_paid_le (userSchedules db userId)
    (userRentTransactions db userId startDate stop) now hnn hnd2
    (eachWeekOfInterval startDate stop) []
  rw [hfe] at hle
  exact hle

/-- C4 witness: the theorem applied to the sample database over the
window `[0, day 13]` at `now = ` day 100, the id-uniqueness hypothesis
discharged by evaluation. -/
theorem totalPaid_covers_weekly_sums_witness :
    (calculateFlatmateBalance sampleDb "u1" none "u1@flat.example" 0
        (13 * 86400000) 8640000000).totalPaid =
      sumBy Transaction.amount
        (userRentTransactions sampleDb "u1" 0 (13 * 86400000)) ∧
    sumBy WeeklyObligation.amountPaid
        (calculateFlatmateBalance sampleDb "u1" none "u1@flat.example" 0
          (13 * 86400000) 8640000000).weeklyBreakdown ≤
      (calculateFlatmateBalance sampleDb "u1" none "u1@flat.example" 0
        (13 * 86400000) 8640000000).totalPaid :=
  totalPaid_covers_weekly_sums sampleDb "u1" none "u1@flat.example" 0
    (13 * 86400000) 8640000000 (by decide)

/-! ## Claim C5: balance identities -/

/-- C5: every weekly entry satisfies
`balance = amountPaid - amountDue`, the top level satisfies
`balance = totalPaid - totalDue`, and a user with no qualifying
transactions in the window has `totalPaid = 0` and
`balance = -totalDue`. -/
theorem balance_is_paid_minus_due (db : Db) (userId : String)
    (userName : Option String) (userEmail : String) (startDate stop now : Int) :
    (∀ ob ∈ (calculateFlatmateBalance db userId userName userEmail
        startDate stop now).weeklyBreakdown,
      ob.balance = ob.amountPaid - ob.amountDue) ∧
    (calculateFlatmateBalance db userId userName userEmail
        startDate stop now).balance =
      (calculateFlatmateBalance db userId userName userEmail
        startDate stop now).totalPaid -
      (calculateFlatmateBalance db userId userName userEmail
        startDate stop now).totalDue ∧
    (userRentTransactions db userId startDate stop = [] →
      (calculateFlatmateBalance db userId userName userEmail
          startDate stop now).totalPaid = 0 ∧
      (calculateFlatmateBalance db userId userName userEmail
          startDate stop now).balance =
        -(calculateFlatmateBalance db userId userName userEmail
          startDate stop now).totalDue) := by
  refine ⟨?_, rfl, ?_⟩
  · intro ob hob
    exact (processWeeks_mem_facts _ _ _ _ _ ob hob).1
  · intro hemp
    have h0 : (calculateFlatmateBalance db userId userName userEmail
        startDate stop now).totalPaid = 0 := by
      show sumBy Transaction.amount
        (userRentTransactions db userId startDate stop) = 0
      rw [hemp]
      simp [sumBy]
    refine ⟨h0, ?_⟩
    have hb : (calculateFlatmateBalance db userId userName userEmail
        startDate stop now).balance =
        (calculateFlatmateBalance db userId userName userEmail
          startDate stop now).totalPaid -
        (calculateFlatmateBalance db userId userName userEmail
          startDate stop now).totalDue := rfl
    rw [hb, h0, zero_sub]

/-- C5 witness: a user with no transactions in the sample database has
`totalPaid = 0` and `balance = -totalDue`. -/
theorem balance_is_paid_minus_due_witness :
    (calculateFlatmateBalance sampleDb "u2" none "u2@flat.example" 0
        (13 * 86400000) 8640000000).totalPaid = 0 ∧
    (calculateFlatmateBalance sampleDb "u2" none "u2@flat.example" 0
        (13 * 86400000) 8640000000).balance =
      -(calculateFlatmateBalance sampleDb "u2" none "u2@flat.example" 0
        (13 * 86400000) 8640000000).totalDue :=
  (balance_is_paid_minus_due sampleDb "u2" none "u2@flat.example" 0
    (13 * 86400000) 8640000000).2.2 (by decide)

/-! ## Claim C6: future weeks are skipped -/

/-- C6: no weekly entry has a due date after `now` (the time of
computation), and `totalDue` is exactly the sum of the recorded
entries' `amountDue`, so skipped weeks contribute nothing. -/
theorem weeklyBreakdown_no_future_dueDates (db : Db) (userId : String)
    (userName : Option String) (userEmail : String) (startDate stop now : Int) :
    (∀ ob ∈ (calculateFlatmateBalance db userId userName userEmail
        startDate stop now).weeklyBreakdown, ob.dueDate ≤ now) ∧
    (calculateFlatmateBalance db userId userName userEmail
        startDate stop now).totalDue =
      sumBy WeeklyObligation.amountDue
        (calculateFlatmateBalance db userId userName userEmail
          startDate stop now).weeklyBreakdown := by
  refine ⟨?_, ?_⟩
  · intro ob hob
    exact (processWeeks_mem_facts _ _ _ _ _ ob hob).2.1
  · exact processWeeks_totalDue _ _ _ _ _

/-- C6 witness: at the sample database, `totalDue` equals the sum of
the recorded entries' `amountDue`. -/
theorem weeklyBreakdown_no_future_dueDates_witness :
    (calculateFlatmateBalance sampleDb "u1" none "u1@flat.example" 0
        (13 * 86400000) 8640000000).totalDue =
      sumBy WeeklyObligation.amountDue
        (calculateFlatmateBalance sampleDb "u1" none "u1@flat.example" 0
          (13 * 86400000) 8640000000).weeklyBreakdown :=
  (weeklyBreakdown_no_future_dueDates sampleDb "u1" none "u1@flat.example" 0
    (13 * 86400000) 8640000000).2

/-! ## Claim C9: currentWeeklyRate -/

/-- C9: `currentWeeklyRate` is `null` exactly when the weekly-amount
resolver applied to the user's schedules at `now` yields 0 (the JS
`currentRate || null` treats the rate 0 as falsy). -/
theorem currentWeeklyRate_none_iff_zero (db : Db) (userId : String)
    (userName : Option String) (userEmail : String) (startDate stop now : Int) :
    (calculateFlatmateBalance db userId userName userEmail
        startDate stop now).currentWeeklyRate = none ↔
      getWeeklyAmount (userSchedules db userId) now = 0 := by
  show (if getWeeklyAmount (userSchedules db userId) now = 0 then none
    else some (getWeeklyAmount (userSchedules db userId) now)) = none ↔ _
  split_ifs with h0
  · simp [h0]
  · simp [h0]

/-- C9 witness: a user with no schedules resolves to rate 0, hence a
`null` current weekly rate. -/
theorem currentWeeklyRate_none_iff_zero_witness :
    (calculateFlatmateBalance sampleDb "u2" none "u2@flat.example" 0
        (13 * 86400000) 8640000000).currentWeeklyRate = none :=
  (currentWeeklyRate_none_iff_zero sampleDb "u2" none "u2@flat.example" 0
    (13 * 86400000) 8640000000).mpr (by decide)

/-! ## Claim C7: the user-scoped entry point -/

/-- C7: `calculateUserBalance` returns `null` exactly when no user with
the given id exists, and otherwise returns that (first matching) user's
balance over the resolved window; the function is total, so no error is
ever raised. -/
theorem calculateUserBalance_null_iff_missing (db : Db)
    (parse : String → Option Int) (now : Int) (userId : String)
    (startDate : Option Int) :
    (calculateUserBalance db parse now userId startDate = none ↔
      ¬ ∃ u ∈ db.users, u.id = userId) ∧
    (∀ u, db.users.find? (fun v => decide (v.id = userId)) = some u →
      calculateUserBalance db parse now userId startDate =
        some (calculateFlatmateBalance db u.id u.name u.email
          (resolveStartDate db parse now startDate) now now)) := by
  constructor
  · constructor
    · intro hnone
      rintro ⟨u, hu, hid⟩
      rcases hfind : db.users.find? (fun v => decide (v.id = userId)) with _ | v
      · have := List.find?_eq_none.mp hfind u hu
        simp [hid] at this
      · unfold calculateUserBalance at hnone
        rw [hfind] at hnone
        simp at hnone
    · intro hnex
      unfold calculateUserBalance
      rcases hfind : db.users.find? (fun v => decide (v.id = userId)) with _ | u
      · rw [hfind]
      · exfalso
        have hm := List.mem_of_find?_eq_some hfind
        have hp := List.find?_some hfind
        simp only [decide_eq_true_eq] at hp
        exact hnex ⟨u, hm, hp⟩
  · intro u hfind
    unfold calculateUserBalance
    rw [hfind]

/-- C7 witness: looking up a missing id in the sample database yields
`null`, and looking up the present user yields their balance. -/
theorem calculateUserBalance_null_iff_missing_witness :
    calculateUserBalance sampleDb sampleParse 8640000000 "ghost" none = none ∧
    calculateUserBalance sampleDb sampleParse 8640000000 "u1" none =
      some (calculateFlatmateBalance sampleDb "u1" none "u1@flat.example"
        (resolveStartDate sampleDb sampleParse 8640000000 none)
        8640000000 8640000000) :=
  ⟨(calculateUserBalance_null_iff_missing sampleDb sampleParse 8640000000
      "ghost" none).1.mpr (by decide),
   (calculateUserBalance_null_iff_missing sampleDb sampleParse 8640000000
      "u1" none).2 ⟨"u1", none, "u1@flat.example"⟩ (by decide)⟩

/-! ## Claim C8: the analysis start date fallback -/

/-- C8: with no explicit start date, a missing, falsy or unparseable
configured `analysis_start_date` is silently ignored and the window
starts 180 days before `now`; a configured date that parses is used.
`calculateAllBalances` computes every balance from the resolved start. -/
theorem analysisStartDate_fallback (db : Db) (parse : String → Option Int)
    (now : Int) :
    (db.systemState.find?
        (fun kv => decide (kv.1 = "analysis_start_date")) = none →
      getAnalysisStartDate db parse = none) ∧
    (∀ k, db.systemState.find?
        (fun kv => decide (kv.1 = "analysis_start_date")) = some (k, none) →
      getAnalysisStartDate db parse = none) ∧
    (∀ k v, db.systemState.find?
        (fun kv => decide (kv.1 = "analysis_start_date")) = some (k, some v) →
      v ≠ "" → getAnalysisStartDate db parse = parse v) ∧
    (getAnalysisStartDate db parse = none →
      resolveStartDate db parse now none = now - 180 * msPerDay) ∧
    (∀ d, getAnalysisStartDate db parse = some d →
      resolveStartDate db parse now none = d) ∧
    (calculateAllBalances db parse now none).flatmates =
      db.users.map (fun f => calculateFlatmateBalance db f.id f.name f.email
        (resolveStartDate db parse now none) now now) := by
  refine ⟨?_, ?_, ?_, ?_, ?_, rfl⟩
  · intro h
    unfold getAnalysisStartDate
    rw [h]
  · intro k h
    unfold getAnalysisStartDate
    rw [h]
  · intro k v h hne
    unfold getAnalysisStartDate
    rw [h]
    simp [hne]
  · intro h
    unfold resolveStartDate
    rw [h]
    rfl
  · intro d h
    unfold resolveStartDate
    rw [h]
    rfl

/-- C8 witness: the empty configuration falls back to
`now - 180 days`, and the sample configuration resolves to its parsed
date (day 42). -/
theorem analysisStartDate_fallback_witness :
    resolveStartDate sampleDb sampleParse 17280000000 none =
      17280000000 - 180 * msPerDay ∧
    resolveStartDate configuredDb sampleParse 17280000000 none =
      42 * 86400000 :=
  ⟨(analysisStartDate_fallback sampleDb sampleParse 17280000000).2.2.2.1
      (by decide),
   (analysisStartDate_fallback configuredDb sampleParse 17280000000).2.2.2.2.1
      (42 * 86400000) (by decide)⟩

/-! ## Claim C10: the current-week status thresholds -/

/-- The status chain's behaviour at every combination of threshold
conditions, in the source's evaluation order, together with the
behaviour when nothing is due and nothing is paid. -/
theorem statusOf_cases (due paid : ℚ) :
    (paid = 0 ∧ due > 0 → statusOf due paid = "unpaid") ∧
    (¬(paid = 0 ∧ due > 0) → paid ≥ due * 1.1 →
      statusOf due paid = "overpaid") ∧
    (¬(paid = 0 ∧ due > 0) → ¬(paid ≥ due * 1.1) → paid ≥ due * 0.95 →
      statusOf due paid = "paid") ∧
    (¬(paid = 0 ∧ due > 0) → ¬(paid ≥ due * 1.1) → ¬(paid ≥ due * 0.95) →
      paid > 0 → statusOf due paid = "partial") ∧
    (due = 0 ∧ paid = 0 → statusOf due paid = "overpaid") := by
  unfold statusOf
  split_ifs with h1 h2 h3 h4 <;>
    refine ⟨?_, ?_, ?_, ?_, ?_⟩ <;> intros <;> simp_all

/-- C10 (amended): every current-week summary entry's status follows
the ordered thresholds of the source (`unpaid`, then the `1.1` and
`0.95` thresholds, then `partial`); when nothing is due and nothing is
paid the `0 ≥ 1.1 * 0` threshold fires, so the status is `overpaid`,
not `paid`. -/
theorem currentWeekSummary_status_thresholds (db : Db) (now : Int) :
    ∀ e ∈ getCurrentWeekSummary db now,
      (e.amountPaid = 0 ∧ e.amountDue > 0 → e.status = "unpaid") ∧
      (¬(e.amountPaid = 0 ∧ e.amountDue > 0) →
        e.amountPaid ≥ e.amountDue * 1.1 → e.status = "overpaid") ∧
      (¬(e.amountPaid = 0 ∧ e.amountDue > 0) →
        ¬(e.amountPaid ≥ e.amountDue * 1.1) →
        e.amountPaid ≥ e.amountDue * 0.95 → e.status = "paid") ∧
      (¬(e.amountPaid = 0 ∧ e.amountDue > 0) →
        ¬(e.amountPaid ≥ e.amountDue * 1.1) →
        ¬(e.amountPaid ≥ e.amountDue * 0.95) →
        e.amountPaid > 0 → e.status = "partial") ∧
      (e.amountDue = 0 ∧ e.amountPaid = 0 → e.status = "overpaid") := by
  intro e he
  simp only [getCurrentWeekSummary, List.mem_map] at he
  rcases he with ⟨f, hf, rfl⟩
  exact statusOf_cases
    (currentWeekEntry db (startOfWeek now)
      (getDueThursday (startOfWeek now)) f).amountDue
    (currentWeekEntry db (startOfWeek now)
      (getDueThursday (startOfWeek now)) f).amountPaid

theorem statusOf_zero_zero : statusOf 0 0 = "overpaid" := by
  unfold statusOf
  rw [if_neg (by norm_num), if_pos (by norm_num)]

/-- C10 counterexample: a user with no schedules and no payments has
`amountDue = 0` and `amountPaid = 0`, and the summary reports
`overpaid` (the `0 ≥ 1.1 * 0` threshold fires), not `paid` as the claim
states for "nothing due and nothing paid". -/
theorem currentWeekSummary_zero_zero_counterexample :
    getCurrentWeekSummary emptyActivityDb 0 =
      [⟨"u1", none, 0, 0, "overpaid"⟩] ∧ ("overpaid" : String) ≠ "paid" := by
  constructor
  · have h1 : getCurrentWeekSummary emptyActivityDb 0 =
        [⟨"u1", none, 0, 0, statusOf 0 0⟩] := rfl
    rw [h1, statusOf_zero_zero]
  · decide

/-- C10 witness: in the sample database at `now =` day 7, the sole
entry has 250 due, 250 paid, and the `0.95` threshold yields `paid`. -/
theorem currentWeekSummary_status_thresholds_witness :
    ∃ e ∈ getCurrentWeekSummary sampleDb (7 * 86400000),
      e.status = "paid" := by
  have hmem : currentWeekEntry sampleDb (startOfWeek (7 * 86400000))
      (getDueThursday (startOfWeek (7 * 86400000)))
      ⟨"u1", none, "u1@flat.example"⟩ ∈
      getCurrentWeekSummary sampleDb (7 * 86400000) :=
    List.mem_singleton_self _
  have hdue : (currentWeekEntry sampleDb (startOfWeek (7 * 86400000))
      (getDueThursday (startOfWeek (7 * 86400000)))
      ⟨"u1", none, "u1@flat.example"⟩).amountDue = 250 := by decide
  have hfil : currentWeekPayments sampleDb "u1"
      (getDueThursday (startOfWeek (7 * 86400000))) =
      sampleDb.transactions := by decide
  have hpaid : (currentWeekEntry sampleDb (startOfWeek (7 * 86400000))
      (getDueThursday (startOfWeek (7 * 86400000)))
      ⟨"u1", none, "u1@flat.example"⟩).amountPaid = 250 := by
    show sumBy Transaction.amount (currentWeekPayments sampleDb "u1"
      (getDueThursday (startOfWeek (7 * 86400000)))) = 250
    rw [hfil]
    simp [sumBy, sampleDb]
  refine ⟨_, hmem,
    (currentWeekSummary_status_thresholds sampleDb (7 * 86400000) _ hmem).2.2.1
      ?_ ?_ ?_⟩
  · rw [hpaid, hdue]
    norm_num
  · rw [hpaid, hdue]
    norm_num
  · rw [hpaid, hdue]
    norm_num

end FlatOS

